import Mathlib

/-!
Verification of the Turing machine simulator (`src/python`): a shallow
embedding of `models.py` and `turingmachine.py` in Lean 4, together with
theorems settling the specification's claims about it.

Modelling conventions:
* Python tape symbols are single-character strings; they are embedded as `Char`.
* Python exceptions become `Except` results.  A Python method that mutates
  `self` and may raise becomes a function returning the mutated value paired
  with an `Except` outcome, because mutations performed before the raise
  persist in Python.
* Python `dict` built by a comprehension over a list (later duplicates
  overwrite earlier ones) is embedded as lookup of the LAST matching list
  entry; the in-place wildcard mutation of a stored rule becomes replacement
  of that last matching entry.
* `State` objects are interned by `State.get` (registry in `models.py`), so
  object identity coincides with name equality; the machine-level model
  therefore identifies a `State` with its name.  The registry itself, with
  explicit object identities, is modelled separately in namespace `Interned`
  for the claims about `State.get`.
* Unbounded loops (`TuringMachine.run`) take explicit fuel.
-/

namespace TM

/-- State of the machine, identified by its interned name (`models.State`). -/
structure State where
  name : String
deriving DecidableEq, Repr

/-- Interning collapses to the name at machine level (`models.State.get`). -/
def State.get (name : String) : State := ⟨name⟩

/-- Head actions (`models.Action`). -/
inductive Action where
  | left
  | right
  | stay
  | HALT
deriving DecidableEq, Repr

/-- One transition rule (`models.Transition`). -/
structure Transition where
  start_state : State
  end_state : State
  tape_value : Char
  new_tape_value : Char
  action : Action
deriving DecidableEq, Repr

/-- Result of a transition lookup (`models.TransitionResult`). -/
structure TransitionResult where
  state : State
  tape_value : Char
  action : Action
deriving DecidableEq, Repr

/-- Exceptions raised while stepping, as a value type.  `indexError` models a
Python `IndexError` from an out-of-range tape access; `assertionError` models
the `assert` in `TransitionMap.get_result`. -/
inductive StepError where
  | nextAfterHalt
  | noSuchTransitionRule (state : State) (tape_value : Char)
  | endOfTapeError (message : String) (state : State) (tape : List Char) (index : Int)
  | assertionError
  | indexError
deriving DecidableEq, Repr

/-- Dict-key test used by `TransitionMap.map`: keys are
`(start_state, tape_value)` pairs. -/
def keyMatches (s : State) (v : Char) (t : Transition) : Bool :=
  decide (t.start_state = s) && decide (t.tape_value = v)

/-- Replace the first element satisfying `p` by `u` (used to model in-place
mutation of the one rule object a dict key maps to). -/
def replaceFirstMatch (p : Transition → Bool) : List Transition → Transition → List Transition
  | [], _ => []
  | t :: rest, u => if p t then u :: rest else t :: replaceFirstMatch p rest u

/-- Rule table (`models.TransitionMap`): the list of rules; the Python dict
`self.map` is derived state (see `TransitionMap.lookup`). -/
structure TransitionMap where
  transitions : List Transition
deriving DecidableEq, Repr

/-- Dict lookup: the comprehension `{(t.start_state, t.tape_value): t}` lets a
later duplicate overwrite an earlier one, so the LAST matching rule wins. -/
def TransitionMap.lookup (m : TransitionMap) (s : State) (v : Char) : Option Transition :=
  m.transitions.reverse.find? (keyMatches s v)

/-- Mutation of the rule object the dict maps `(s, v)` to: replace the last
matching list entry (the dict values alias the list entries in Python). -/
def TransitionMap.updateRule (m : TransitionMap) (s : State) (v : Char) (u : Transition) :
    TransitionMap :=
  ⟨(replaceFirstMatch (keyMatches s v) m.transitions.reverse u).reverse⟩

/-- Lookup raising `NoSuchTransitionRule` on a missing key
(`models.TransitionMap._transition_for`). -/
def TransitionMap.transition_for (m : TransitionMap) (s : State) (v : Char) :
    Except StepError Transition :=
  match m.lookup s v with
  | some t => .ok t
  | none => .error (.noSuchTransitionRule s v)

/-- Membership test (`models.TransitionMap.understands`): key in dict. -/
def TransitionMap.understands (m : TransitionMap) (s : State) (v : Char) : Bool :=
  (m.lookup s v).isSome

/-- Transition lookup with lazy wildcard resolution
(`models.TransitionMap.get_result`).  When the matched rule writes the
wildcard marker, the code asserts `tape_value == transition.tape_value`,
memoizes `transition.new_tape_value = transition.tape_value` into the stored
rule, and returns the result built from the mutated rule.  The mutated map is
returned alongside the result. -/
def TransitionMap.get_result (m : TransitionMap) (s : State) (v : Char) :
    Except StepError (TransitionResult × TransitionMap) :=
  match m.transition_for s v with
  | .error e => .error e
  | .ok t =>
    if t.new_tape_value = '*' then
      if t.tape_value = v then
        let u : Transition := { t with new_tape_value := t.tape_value }
        .ok (⟨u.end_state, u.new_tape_value, u.action⟩, m.updateRule s v u)
      else .error .assertionError
    else .ok (⟨t.end_state, t.new_tape_value, t.action⟩, m)

/-- Result of `Program.known_tape_values` (`models.TapeValues`): Python sets
become finite sets. -/
structure TapeValues where
  start_values : Finset Char
  written_values : Finset Char
  all : Finset Char
deriving DecidableEq

/-- Program description (`models.Program`). -/
structure Program where
  states : List State
  transitions : List Transition
  initial_state : String
  initial_index : Int
deriving DecidableEq, Repr

/-- Derived symbol sets (`models.Program.known_tape_values`).  The code calls
`discard` (never raises) on `start_values` and `written_values` but `remove`
on `all`, which raises `KeyError` when the wildcard marker is absent; the
`none` result models that `KeyError`. -/
def Program.known_tape_values (p : Program) : Option TapeValues :=
  let sv : Finset Char := p.transitions.foldl (fun s t => insert t.tape_value s) ∅
  let wv : Finset Char := p.transitions.foldl (fun s t => insert t.new_tape_value s) ∅
  let all := sv ∪ wv
  if '*' ∈ all then some ⟨sv.erase '*', wv.erase '*', all.erase '*'⟩ else none

/-- Python list read `l[i]` with negative-index wrap-around; `none` models
`IndexError`. -/
def pyGet (l : List Char) (i : Int) : Option Char :=
  let j : Int := if i < 0 then i + l.length else i
  if h : 0 ≤ j ∧ j < l.length then some (l.get ⟨j.toNat, by omega⟩) else none

/-- Python list write `l[i] = c` with negative-index wrap-around; `none`
models `IndexError`. -/
def pySet (l : List Char) (i : Int) (c : Char) : Option (List Char) :=
  let j : Int := if i < 0 then i + l.length else i
  if 0 ≤ j ∧ j < l.length then some (l.set j.toNat c) else none

/-- Machine configuration (`turingmachine.TuringMachine` instance fields;
`verbose` only controls printing and is omitted). -/
structure TuringMachine where
  states : List State
  transition_map : TransitionMap
  tape : List Char
  state : State
  tapeIndex : Int
  errorOnEOT : Bool
  halted : Bool
deriving DecidableEq, Repr

/-- Constructor (`TuringMachine.__init__`). -/
def TuringMachine.init (program : Program) (tape : List Char) (err_on_eot : Bool) :
    TuringMachine where
  states := program.states
  transition_map := ⟨program.transitions⟩
  tape := tape
  state := State.get program.initial_state
  tapeIndex := program.initial_index
  errorOnEOT := err_on_eot
  halted := false

/-- Boundary policy (`TuringMachine._check_end_of_tape`): raise
`EndOfTapeError` off either edge when `errorOnEOT`, otherwise materialize one
blank cell there and report the sentinel.  In the final branch the index is
within bounds, so the `getD` default is never read. -/
def TuringMachine.check_end_of_tape (m : TuringMachine) :
    Except StepError (TuringMachine × Char) :=
  if m.tapeIndex < 0 ∧ m.errorOnEOT then
    .error (.endOfTapeError "Fell off left side" m.state m.tape (m.tapeIndex + 1))
  else if (m.tape.length : Int) ≤ m.tapeIndex ∧ m.errorOnEOT then
    .error (.endOfTapeError "Fell off right side" m.state m.tape (m.tapeIndex - 1))
  else if m.tapeIndex < 0 then
    .ok ({ m with tape := ' ' :: m.tape, tapeIndex := 0 }, '#')
  else if (m.tape.length : Int) ≤ m.tapeIndex then
    .ok ({ m with tape := m.tape ++ [' '] }, '#')
  else
    .ok (m, m.tape.getD m.tapeIndex.toNat ' ')

/-- Head movement and halting (`TuringMachine._perform_action`). -/
def TuringMachine.perform_action (m : TuringMachine) (action : Action) : TuringMachine :=
  match action with
  | .left => { m with tapeIndex := m.tapeIndex - 1 }
  | .right => { m with tapeIndex := m.tapeIndex + 1 }
  | .stay => m
  | .HALT => { m with halted := true }

/-- One step (`TuringMachine.next`): returns the machine as left by the call
(mutations before a raise persist) paired with either the step's
`(state_before, symbol_before)` or the exception. -/
def TuringMachine.next (m : TuringMachine) : TuringMachine × Except StepError (State × Char) :=
  if m.halted then (m, .error .nextAfterHalt)
  else
    match m.check_end_of_tape with
    | .error e => (m, .error e)
    | .ok (m1, old) =>
      match pyGet m1.tape m1.tapeIndex with
      | none => (m1, .error .indexError)
      | some cur =>
        match m1.transition_map.get_result m1.state cur with
        | .error e => (m1, .error e)
        | .ok (result, tm) =>
          match pySet m1.tape m1.tapeIndex result.tape_value with
          | none => ({ m1 with transition_map := tm }, .error .indexError)
          | some tape2 =>
            (TuringMachine.perform_action
              { m1 with transition_map := tm, tape := tape2, state := result.state }
              result.action,
             .ok (m1.state, old))

/-- Outcome of `TuringMachine.run` under a fuel bound. -/
inductive RunResult where
  | halted (m : TuringMachine)
  | failed (m : TuringMachine) (e : StepError)
  | outOfFuel (m : TuringMachine)
deriving DecidableEq, Repr

/-- Machine left behind by a run outcome. -/
def RunResult.machine : RunResult → TuringMachine
  | .halted m => m
  | .failed m _ => m
  | .outOfFuel m => m

/-- Run to completion (`TuringMachine.run`): loop `next` while not halted;
any exception propagates.  `outOfFuel` marks a run still going after `fuel`
steps. -/
def TuringMachine.run : Nat → TuringMachine → RunResult
  | 0, m => if m.halted then .halted m else .outOfFuel m
  | fuel + 1, m =>
    if m.halted then .halted m
    else
      match m.next with
      | (m2, .ok _) => TuringMachine.run fuel m2
      | (m2, .error e) => .failed m2 e

/-- Acceptance predicate (`TuringMachine.accepts`): fresh machine, run it;
`true` on a normal halt, `false` when the run raises `NoSuchTransitionRule`,
any other exception propagates (`Except.error`); `none` when the fuel runs
out before the run settles. -/
def TuringMachine.accepts (program : Program) (tape : List Char) (error_on_eot : Bool)
    (fuel : Nat) : Option (Except StepError Bool) :=
  let f := TuringMachine.init program tape error_on_eot
  match TuringMachine.run fuel f with
  | .halted _ => some (.ok true)
  | .failed _ (.noSuchTransitionRule _ _) => some (.ok false)
  | .failed _ e => some (.error e)
  | .outOfFuel _ => none

/-- Python `list.remove`: drop the first occurrence. -/
def removeFirst (v : Char) : List Char → List Char
  | [] => []
  | c :: rest => if c = v then rest else c :: removeFirst v rest

/-- Inner loop of `ensure_transitions` for one state: remove from the residual
list each symbol some rule of that state reads. -/
def coverState (transitions : List Transition) (state : State) (tv : List Char) : List Char :=
  transitions.foldl
    (fun acc t =>
      if t.start_state = state ∧ t.tape_value ∈ acc then removeFirst t.tape_value acc else acc)
    tv

/-- Exception raised by `ensure_transitions` (a `NoSuchTransitionRule` whose
payload is the list of uncovered symbols). -/
inductive EnsureError where
  | noSuchTransitionRule (state : State) (tape_values : List Char)
deriving DecidableEq, Repr

/-- Outer loop of `ensure_transitions`.  Faithful to the source: the residual
list is threaded through ALL states — `tape_values = list(tape_values)` runs
once, before the state loop, so a symbol removed while checking one state
stays removed for every later state. -/
def ensureLoop (transitions : List Transition) : List State → List Char → Except EnsureError Unit
  | [], _ => .ok ()
  | s :: rest, tv =>
    let tv2 := coverState transitions s tv
    if tv2 = [] then ensureLoop transitions rest tv2
    else .error (.noSuchTransitionRule s tv2)

/-- Coverage validator (`TuringMachine.ensure_transitions`); the Python
default for `tape_values` is `('1', '0', ' ')`. -/
def TuringMachine.ensure_transitions (m : TuringMachine) (tape_values : List Char) :
    Except EnsureError Unit :=
  ensureLoop m.transition_map.transitions m.states tape_values

/-- Whitespace test of Python `str.strip` restricted to ASCII. -/
def isPySpace (c : Char) : Bool :=
  c = ' ' || c = '\t' || c = '\n' || c = '\x0d' || c = '\x0b' || c = '\x0c'

/-- Python `''.join(tape).strip()` on a list of characters. -/
def stripChars (s : List Char) : List Char :=
  ((s.dropWhile isPySpace).reverse.dropWhile isPySpace).reverse

/-- Trimmed tape output (`TuringMachine.print_tape_trimmed` computes and
prints this string). -/
def TuringMachine.tape_trimmed (m : TuringMachine) : String :=
  String.mk (stripChars m.tape)

/-- Addressability after the boundary check, as the specification states it:
whenever `_check_end_of_tape` returns normally, the head index is a valid
tape position of the machine it leaves behind. -/
def addressableAfterCheck (m : TuringMachine) : Bool :=
  match m.check_end_of_tape with
  | .ok (m2, _) => decide (0 ≤ m2.tapeIndex ∧ m2.tapeIndex < m2.tape.length)
  | .error _ => true

/-- One crossing of the left tape edge: the head moves left and the next
step's boundary check runs (the fallback arm is unreachable when errors are
disabled). -/
def crossLeftOnce (m : TuringMachine) : TuringMachine :=
  match (m.perform_action Action.left).check_end_of_tape with
  | .ok (m2, _) => m2
  | .error _ => m.perform_action Action.left

/-- Did the computation fail with `NoSuchTransitionRule`? -/
def exceptFailsNoRule {α : Type} : Except StepError α → Bool
  | .error (.noSuchTransitionRule _ _) => true
  | _ => false

/-- Is the error a `NoSuchTransitionRule`? -/
def StepError.isNoRule : StepError → Bool
  | .noSuchTransitionRule _ _ => true
  | _ => false

/-- Did the run halt normally? -/
def RunResult.isHaltedRun : RunResult → Bool
  | .halted _ => true
  | _ => false

/-- Did the run fail with `NoSuchTransitionRule`? -/
def RunResult.isNoRuleFailure : RunResult → Bool
  | .failed _ (.noSuchTransitionRule _ _) => true
  | _ => false

/-- Program whose state `A` covers the symbols `'1'`, `'0'`, `' '` while
state `B` has no rule at all (input exercising `ensure_transitions`). -/
def progEnsure : Program :=
  ⟨[State.get "A", State.get "B"],
   [⟨State.get "A", State.get "A", '1', '1', Action.stay⟩,
    ⟨State.get "A", State.get "A", '0', '0', Action.stay⟩,
    ⟨State.get "A", State.get "A", ' ', ' ', Action.stay⟩], "A", 0⟩

/-- Machine built from `progEnsure`. -/
def machineEnsure : TuringMachine := TuringMachine.init progEnsure ['1'] true

/-- Machine whose initial head index 2 lies strictly beyond its 1-cell tape,
with errors on end of tape disabled. -/
def machineFarRight : TuringMachine :=
  { states := [State.get "A"], transition_map := ⟨[]⟩, tape := ['1'],
    state := State.get "A", tapeIndex := 2, errorOnEOT := false, halted := false }

/-- Rule table holding one wildcard rule. -/
def wildcardMap : TransitionMap :=
  ⟨[⟨State.get "A", State.get "B", '1', '*', Action.right⟩]⟩

/-- Machine at the left edge of a 1-cell tape with errors disabled. -/
def machineLeftEdge : TuringMachine :=
  { states := [State.get "A"], transition_map := ⟨[]⟩, tape := ['1'],
    state := State.get "A", tapeIndex := 0, errorOnEOT := false, halted := false }

/-- Program none of whose transitions uses the wildcard marker. -/
def progNoWildcard : Program :=
  ⟨[State.get "A"], [⟨State.get "A", State.get "A", '1', '1', Action.stay⟩], "A", 0⟩

/-- Program of the specification's run scenario. -/
def progScenario : Program :=
  ⟨[State.get "A", State.get "HALT_STATE"],
   [⟨State.get "A", State.get "A", '1', '1', Action.right⟩,
    ⟨State.get "A", State.get "HALT_STATE", ' ', ' ', Action.HALT⟩], "A", 0⟩

/-- Machine of the specification's run scenario. -/
def machineScenario : TuringMachine := TuringMachine.init progScenario ['1', '1', ' '] true

/-- Machine with no rules whose first step must fail with
`NoSuchTransitionRule`. -/
def machineStuck : TuringMachine :=
  { states := [State.get "A"], transition_map := ⟨[]⟩, tape := ['1'],
    state := State.get "A", tapeIndex := 0, errorOnEOT := true, halted := false }

namespace Interned

/-- State object as the registry sees it: `oid` models Python object
identity (`models.State` instances are distinguishable objects; `hashable`
mixes the identity-based `object.__hash__` into the hash). -/
structure State where
  oid : Nat
  name : String
deriving DecidableEq, Repr

/-- Registry contents (`models.State.registry`), in insertion order. -/
structure Registry where
  entries : List (String × State)
deriving DecidableEq, Repr

/-- Registry well-formedness: each entry maps a name to an object carrying
that name (true of every registry the code can build, since `State.get`
constructs the object from the looked-up name). -/
def Registry.WF (r : Registry) : Prop := ∀ e ∈ r.entries, (e.2).name = e.1

/-- Get-or-create (`models.State.get`): return the registered object, or
register a fresh one (fresh `oid`) under the name. -/
def State.get (r : Registry) (name : String) : State × Registry :=
  match r.entries.find? (fun e => e.1 = name) with
  | some e => (e.2, r)
  | none => (⟨r.entries.length, name⟩, ⟨r.entries ++ [(name, ⟨r.entries.length, name⟩)]⟩)

/-- Python `State.__eq__` (from the `equatable` decorator): same type and
equal field values, i.e. equal names. -/
def pyEq (a b : State) : Bool := a.name = b.name

/-- Stand-in for Python `hash(str)`: any fixed function of the string. -/
def strHash (s : String) : Nat := s.hash.toNat

/-- Accumulator of the `hashable` decorator. -/
def hasher (a i : Nat) : Nat := ((a <<< 8) ||| (a >>> 56)) ^^^ i

/-- Python `State.__hash__` (from the `hashable` decorator):
`object.__hash__` (identity-based, modelled by `oid`) xor the fold of
`hasher` over the field hashes. -/
def pyHash (s : State) : Nat := s.oid ^^^ List.foldl hasher 0 [strHash s.name]

end Interned

/-- Facts a successful map lookup gives about the matched rule: the dict key
is the rule's own `(start_state, tape_value)` pair. -/
theorem lookup_key (tm : TransitionMap) (s : State) (v : Char) (t : Transition)
    (h : tm.lookup s v = some t) : t.start_state = s ∧ t.tape_value = v := by
  unfold TransitionMap.lookup at h
  have hp := List.find?_some h
  unfold keyMatches at hp
  simp only [Bool.and_eq_true, decide_eq_true_eq] at hp
  exact hp

/-- Replacing the first match keeps it the first match. -/
theorem replaceFirstMatch_find (p : Transition → Bool) (l : List Transition) (t u : Transition)
    (h : l.find? p = some t) (hu : p u = true) :
    (replaceFirstMatch p l u).find? p = some u := by
  induction l with
  | nil => simp [List.find?] at h
  | cons a l ih =>
    by_cases hpa : p a = true
    · simp [replaceFirstMatch, hpa, List.find?_cons_of_pos _ hu]
    · have h2 : l.find? p = some t := by
        rw [List.find?_cons_of_neg _ hpa] at h
        exact h
      simp only [replaceFirstMatch]
      rw [if_neg hpa, List.find?_cons_of_neg _ hpa]
      exact ih h2

/-- After memoizing the resolved rule, looking the key up returns it. -/
theorem lookup_updateRule (tm : TransitionMap) (s : State) (v : Char) (t u : Transition)
    (h : tm.lookup s v = some t) (hu : keyMatches s v u = true) :
    (tm.updateRule s v u).lookup s v = some u := by
  unfold TransitionMap.lookup at h
  unfold TransitionMap.lookup TransitionMap.updateRule
  simp only [List.reverse_reverse]
  exact replaceFirstMatch_find _ _ t u h hu

/-- C1: `ensure_transitions` does not check every state: the residual symbol
list is copied once, before the state loop, so once the first state has
emptied it every later state passes vacuously.  On `machineEnsure` the call
succeeds although state `B` has no rule for `'1'` (nor any rule at all),
contradicting the method's own docstring, which promises that a successful
return makes `NoSuchTransitionRule` impossible during a run. -/
theorem ensure_transitions_accepts_uncovered_state :
    machineEnsure.ensure_transitions ['1', '0', ' '] = Except.ok () ∧
    machineEnsure.transition_map.understands (State.get "B") '1' = false :=
  ⟨rfl, by decide⟩

/-- C2 (counterexample): with errors disabled and initial head index 2 on a
1-cell tape, `_check_end_of_tape` returns normally after appending a single
blank, leaving the head index 2 out of bounds of the 2-cell tape: the tape is
not addressable at the head index after the call. -/
theorem check_end_of_tape_not_addressable_far_right :
    addressableAfterCheck machineFarRight = false := by
  decide

/-- C2 (amended): whenever `_check_end_of_tape` returns normally, the tape is
addressable at the current head index — in error mode for every starting
index, and with errors disabled for every starting index at most the tape
length (a program-supplied initial index strictly beyond the end is the one
exception, per the counterexample). -/
theorem check_end_of_tape_addressable (m : TuringMachine)
    (h : m.errorOnEOT = true ∨ m.tapeIndex ≤ (m.tape.length : Int)) :
    addressableAfterCheck m = true := by
  unfold addressableAfterCheck TuringMachine.check_end_of_tape
  split_ifs with h1 h2 h3 h4 <;> simp_all
  omega

/-- C2 (witness): the amended theorem applied to `machineScenario`, whose
head starts at index 0 of a 3-cell tape. -/
theorem check_end_of_tape_addressable_witness :
    addressableAfterCheck machineScenario = true :=
  check_end_of_tape_addressable machineScenario (Or.inl rfl)

/-- C6: `known_tape_values` raises `KeyError` (modelled by `none`) for a
program none of whose transitions uses the wildcard marker, because the code
calls `all.remove('*')` — unlike the `discard` used on the other two sets —
and `set.remove` raises when the element is absent. -/
theorem known_tape_values_raises_without_wildcard :
    progNoWildcard.known_tape_values = none := by
  decide

/-- C7: the scenario program on tape `['1','1',' ']` from state `A`, index 0,
runs to completion: it halts, the final tape is `['1','1',' ']`, the final
state is `HALT_STATE`, and the trimmed tape output is `"11"`. -/
theorem scenario_run_halts :
    (TuringMachine.run 10 machineScenario).isHaltedRun = true ∧
    (TuringMachine.run 10 machineScenario).machine.tape = ['1', '1', ' '] ∧
    (TuringMachine.run 10 machineScenario).machine.state = State.get "HALT_STATE" ∧
    (TuringMachine.run 10 machineScenario).machine.halted = true ∧
    (TuringMachine.run 10 machineScenario).machine.tape_trimmed = "11" := by
  decide

/-- C9: `understands` agrees with `get_result` on exactly which
`(state, symbol)` pairs have a rule: the membership test returns `true` iff
the lookup does not fail with `NoSuchTransitionRule`. -/
theorem understands_iff_get_result_no_rule (tm : TransitionMap) (s : State) (v : Char) :
    tm.understands s v = true ↔ exceptFailsNoRule (tm.get_result s v) = false := by
  unfold TransitionMap.understands TransitionMap.get_result TransitionMap.transition_for
  cases hl : tm.lookup s v with
  | none => simp [exceptFailsNoRule]
  | some t =>
    obtain ⟨_, hv⟩ := lookup_key tm s v t hl
    simp only [Option.isSome_some, true_iff]
    by_cases hw : t.new_tape_value = '*'
    · simp [hw, hv, exceptFailsNoRule]
    · simp [hw, exceptFailsNoRule]

/-- C4: wildcard resolution is idempotent.  For a rule whose write symbol is
the wildcard marker, `get_result` with read symbol `v` returns `v` as the
write symbol and memoizes `v` into the stored rule; looking the same key up
again returns `v` again, and the stored rule's effective write symbol stays
`v`. -/
theorem wildcard_resolution_idempotent (tm : TransitionMap) (s : State) (v : Char)
    (t : Transition) (hl : tm.lookup s v = some t) (hw : t.new_tape_value = '*') :
    ∃ r tm2 u, tm.get_result s v = .ok (r, tm2) ∧ r.tape_value = v ∧
      tm2.lookup s v = some u ∧ u.new_tape_value = v ∧
      ∃ r2 tm3, tm2.get_result s v = .ok (r2, tm3) ∧ r2.tape_value = v ∧
        tm3.lookup s v = some u := by
  obtain ⟨hs, hv⟩ := lookup_key tm s v t hl
  subst hs
  subst hv
  have hu : keyMatches t.start_state t.tape_value { t with new_tape_value := t.tape_value } =
      true := by
    unfold keyMatches
    simp
  have hfirst : tm.get_result t.start_state t.tape_value =
      .ok (⟨t.end_state, t.tape_value, t.action⟩,
        tm.updateRule t.start_state t.tape_value { t with new_tape_value := t.tape_value }) := by
    unfold TransitionMap.get_result TransitionMap.transition_for
    rw [hl]
    simp [hw]
  have hl2 : (tm.updateRule t.start_state t.tape_value
        { t with new_tape_value := t.tape_value }).lookup t.start_state t.tape_value =
      some { t with new_tape_value := t.tape_value } :=
    lookup_updateRule tm t.start_state t.tape_value t _ hl hu
  refine ⟨⟨t.end_state, t.tape_value, t.action⟩,
    tm.updateRule t.start_state t.tape_value { t with new_tape_value := t.tape_value },
    { t with new_tape_value := t.tape_value }, hfirst, rfl, hl2, rfl, ?_⟩
  by_cases hstar : t.tape_value = '*'
  · refine ⟨⟨t.end_state, t.tape_value, t.action⟩, _, ?_, rfl,
      lookup_updateRule _ t.start_state t.tape_value _ _ hl2 hu⟩
    unfold TransitionMap.get_result TransitionMap.transition_for
    rw [hl2]
    simp [hstar]
  · refine ⟨⟨t.end_state, t.tape_value, t.action⟩,
      tm.updateRule t.start_state t.tape_value { t with new_tape_value := t.tape_value },
      ?_, rfl, hl2⟩
    unfold TransitionMap.get_result TransitionMap.transition_for
    rw [hl2]
    simp [hstar]

/-- C4 (witness): the theorem applied to the one-rule wildcard table at its
key. -/
theorem wildcard_resolution_idempotent_witness :
    ∃ r tm2 u, wildcardMap.get_result (State.get "A") '1' = .ok (r, tm2) ∧
      r.tape_value = '1' ∧ tm2.lookup (State.get "A") '1' = some u ∧
      u.new_tape_value = '1' ∧
      ∃ r2 tm3, tm2.get_result (State.get "A") '1' = .ok (r2, tm3) ∧
        r2.tape_value = '1' ∧ tm3.lookup (State.get "A") '1' = some u :=
  wildcard_resolution_idempotent wildcardMap (State.get "A") '1'
    ⟨State.get "A", State.get "B", '1', '*', Action.right⟩ (by decide) rfl

/-- Effect of one left-edge crossing from head index 0 with errors disabled:
the boundary check prepends one blank and puts the head back at index 0. -/
theorem crossLeftOnce_at_zero (m : TuringMachine) (he : m.errorOnEOT = false)
    (hi : m.tapeIndex = 0) :
    crossLeftOnce m = { m with tape := ' ' :: m.tape, tapeIndex := 0 } := by
  unfold crossLeftOnce TuringMachine.perform_action TuringMachine.check_end_of_tape
  simp [he, hi]

/-- C5: with errors disabled, crossing the left edge `N` times from head
index 0 grows the tape by exactly `N` cells on the left, each new cell the
blank `' '`, the pre-existing contents preserved (shifted right by `N`), and
the head back at index 0 after each crossing. -/
theorem cross_left_grows (m : TuringMachine) (N : Nat)
    (he : m.errorOnEOT = false) (hi : m.tapeIndex = 0) :
    (crossLeftOnce^[N] m).tape = List.replicate N ' ' ++ m.tape ∧
    (crossLeftOnce^[N] m).tapeIndex = 0 ∧
    (crossLeftOnce^[N] m).errorOnEOT = false := by
  induction N with
  | zero => exact ⟨by simp, hi, he⟩
  | succ n ih =>
    obtain ⟨h1, h2, h3⟩ := ih
    rw [Function.iterate_succ_apply', crossLeftOnce_at_zero _ h3 h2]
    refine ⟨?_, rfl, h3⟩
    simp [h1, List.replicate_succ]

/-- Normal returns of the boundary check leave state and halt flag alone. -/
theorem check_ok_frame (m m1 : TuringMachine) (old : Char)
    (h : m.check_end_of_tape = .ok (m1, old)) :
    m1.state = m.state ∧ m1.halted = m.halted := by
  unfold TuringMachine.check_end_of_tape at h
  split_ifs at h <;> simp_all
  · exact ⟨(congrArg TuringMachine.state h.1).symm, (congrArg TuringMachine.halted h.1).symm⟩
  · exact ⟨(congrArg TuringMachine.state h.1).symm, (congrArg TuringMachine.halted h.1).symm⟩

/-- With the head in bounds the boundary check changes nothing and returns
the current symbol. -/
theorem check_inbounds (m : TuringMachine) (h0 : 0 ≤ m.tapeIndex)
    (h1 : m.tapeIndex < (m.tape.length : Int)) :
    m.check_end_of_tape = .ok (m, m.tape.getD m.tapeIndex.toNat ' ') := by
  unfold TuringMachine.check_end_of_tape
  split_ifs with a b c d
  · exact absurd a.1 (by omega)
  · exact absurd b.1 (by omega)
  · exact absurd c (by omega)
  · exact absurd d (by omega)
  · rfl

/-- Failures of the boundary check are end-of-tape errors. -/
theorem check_error_shape (m : TuringMachine) (e : StepError)
    (h : m.check_end_of_tape = .error e) :
    e = .endOfTapeError "Fell off left side" m.state m.tape (m.tapeIndex + 1) ∨
    e = .endOfTapeError "Fell off right side" m.state m.tape (m.tapeIndex - 1) := by
  unfold TuringMachine.check_end_of_tape at h
  split_ifs at h <;> simp_all

/-- C10: when `next` raises `NoSuchTransitionRule`, the machine's state and
halt flag are exactly as before the call, and when the head index was within
tape bounds before the call the tape contents and head index are unchanged
too. -/
theorem next_noRule_frame (m m2 : TuringMachine) (s : State) (v : Char)
    (h : m.next = (m2, Except.error (StepError.noSuchTransitionRule s v))) :
    m2.state = m.state ∧ m2.halted = m.halted ∧
    (0 ≤ m.tapeIndex → m.tapeIndex < (m.tape.length : Int) →
      m2.tape = m.tape ∧ m2.tapeIndex = m.tapeIndex) := by
  unfold TuringMachine.next at h
  by_cases hh : m.halted = true
  · rw [if_pos hh] at h
    simp at h
  · rw [if_neg hh] at h
    cases hc : m.check_end_of_tape with
    | error e =>
      rw [hc] at h
      simp only [Prod.mk.injEq, Except.error.injEq] at h
      rcases check_error_shape m e hc with he | he <;> simp [he] at h
    | ok p =>
      obtain ⟨m1, old⟩ := p
      rw [hc] at h
      have hframe := check_ok_frame m m1 old hc
      dsimp only at h
      cases hg : pyGet m1.tape m1.tapeIndex with
      | none =>
        rw [hg] at h
        simp at h
      | some cur =>
        rw [hg] at h
        dsimp only at h
        cases hr : m1.transition_map.get_result m1.state cur with
        | error e =>
          rw [hr] at h
          simp only [Prod.mk.injEq, Except.error.injEq] at h
          obtain ⟨hm, -⟩ := h
          subst hm
          refine ⟨hframe.1, hframe.2, fun hb0 hb1 => ?_⟩
          have hcin := check_inbounds m hb0 hb1
          rw [hcin] at hc
          simp only [Except.ok.injEq, Prod.mk.injEq] at hc
          rw [hc.1]
          exact ⟨rfl, rfl⟩
        | ok q =>
          obtain ⟨result, tmap⟩ := q
          rw [hr] at h
          dsimp only at h
          cases hset : pySet m1.tape m1.tapeIndex result.tape_value with
          | none =>
            rw [hset] at h
            simp at h
          | some tape2 =>
            rw [hset] at h
            simp at h

/-- C10 (witness): the rule-less machine's first step fails with
`NoSuchTransitionRule` and leaves everything as the theorem states. -/
theorem next_noRule_frame_witness :
    machineStuck.state = machineStuck.state ∧ machineStuck.halted = machineStuck.halted ∧
    (0 ≤ machineStuck.tapeIndex → machineStuck.tapeIndex < (machineStuck.tape.length : Int) →
      machineStuck.tape = machineStuck.tape ∧ machineStuck.tapeIndex = machineStuck.tapeIndex) :=
  next_noRule_frame machineStuck machineStuck (State.get "A") '1' rfl

/-- C5 (witness): two crossings from `machineLeftEdge` prepend two blanks. -/
theorem cross_left_grows_witness :
    (crossLeftOnce^[2] machineLeftEdge).tape =
      List.replicate 2 ' ' ++ machineLeftEdge.tape ∧
    (crossLeftOnce^[2] machineLeftEdge).tapeIndex = 0 ∧
    (crossLeftOnce^[2] machineLeftEdge).errorOnEOT = false :=
  cross_left_grows machineLeftEdge 2 rfl rfl

/-- C3: `accepts` returns `false` exactly when the run of a freshly
constructed machine on the same configuration fails with
`NoSuchTransitionRule`, returns `true` exactly when that run halts normally,
and any other failure (in particular `EndOfTapeError`) propagates uncaught as
the same error instead of being reinterpreted as rejection. -/
theorem accepts_spec (p : Program) (t : List Char) (eot : Bool) (fuel : Nat) :
    (TuringMachine.accepts p t eot fuel = some (Except.ok false) ↔
      (TuringMachine.run fuel (TuringMachine.init p t eot)).isNoRuleFailure = true) ∧
    (TuringMachine.accepts p t eot fuel = some (Except.ok true) ↔
      (TuringMachine.run fuel (TuringMachine.init p t eot)).isHaltedRun = true) ∧
    (∀ e : StepError, e.isNoRule = false →
      (TuringMachine.accepts p t eot fuel = some (Except.error e) ↔
        ∃ mf, TuringMachine.run fuel (TuringMachine.init p t eot) = RunResult.failed mf e)) := by
  cases hr : TuringMachine.run fuel (TuringMachine.init p t eot) with
  | halted mf =>
    simp [TuringMachine.accepts, hr, RunResult.isNoRuleFailure, RunResult.isHaltedRun]
  | outOfFuel mf =>
    simp [TuringMachine.accepts, hr, RunResult.isNoRuleFailure, RunResult.isHaltedRun]
  | failed mf e =>
    cases e <;>
      simp [TuringMachine.accepts, hr, RunResult.isNoRuleFailure, RunResult.isHaltedRun,
        StepError.isNoRule]
    rintro e he rfl
    simp [StepError.isNoRule] at he

/-- Looking up a name absent from the front segment continues behind it. -/
theorem interned_find?_append_none (p : String × Interned.State → Bool)
    (l1 l2 : List (String × Interned.State)) (h : l1.find? p = none) :
    (l1 ++ l2).find? p = l2.find? p := by
  rw [List.find?_append, h, Option.none_or]

/-- Repeated `State.get` with one name returns the identical object and
leaves the registry unchanged the second time. -/
theorem interned_get_idem (r : Interned.Registry) (name : String) :
    (Interned.State.get (Interned.State.get r name).2 name).1 =
      (Interned.State.get r name).1 ∧
    (Interned.State.get (Interned.State.get r name).2 name).2 =
      (Interned.State.get r name).2 := by
  unfold Interned.State.get
  cases hf : r.entries.find? (fun e => e.1 = name) with
  | some e => simp [hf]
  | none =>
    simp only [hf]
    rw [interned_find?_append_none _ _ _ hf]
    simp [List.find?]

/-- The object `State.get` returns carries the requested name. -/
theorem interned_get_name (r : Interned.Registry) (name : String) (h : r.WF) :
    ((Interned.State.get r name).1).name = name := by
  unfold Interned.State.get
  cases hf : r.entries.find? (fun e => e.1 = name) with
  | some e =>
    have hp := List.find?_some hf
    simp only [decide_eq_true_eq] at hp
    have hm := h e (List.mem_of_find?_eq_some hf)
    simp [hm, hp]
  | none => rfl

/-- `State.get` preserves registry well-formedness. -/
theorem interned_wf_get (r : Interned.Registry) (name : String) (h : r.WF) :
    ((Interned.State.get r name).2).WF := by
  unfold Interned.State.get
  cases hf : r.entries.find? (fun e => e.1 = name) with
  | some e => exact h
  | none =>
    intro x hx
    simp only [List.mem_append, List.mem_singleton] at hx
    rcases hx with hx | hx
    · exact h x hx
    · rw [hx]

/-- C8: `State.get` is idempotent per name — the second call returns the
identity created by the first — so the two results compare equal under the
`equatable` equality and hash identically under the `hashable` hash, while
gets of two distinct names never compare equal. -/
theorem state_get_registry (r : Interned.Registry) (n n1 n2 : String)
    (hwf : r.WF) (hne : n1 ≠ n2) :
    (Interned.State.get (Interned.State.get r n).2 n).1 = (Interned.State.get r n).1 ∧
    Interned.pyEq (Interned.State.get r n).1
      (Interned.State.get (Interned.State.get r n).2 n).1 = true ∧
    Interned.pyHash (Interned.State.get r n).1 =
      Interned.pyHash (Interned.State.get (Interned.State.get r n).2 n).1 ∧
    Interned.pyEq (Interned.State.get r n1).1
      (Interned.State.get (Interned.State.get r n1).2 n2).1 = false := by
  obtain ⟨hi, -⟩ := interned_get_idem r n
  have h1 : ((Interned.State.get r n1).1).name = n1 := interned_get_name r n1 hwf
  have h2 : ((Interned.State.get (Interned.State.get r n1).2 n2).1).name = n2 :=
    interned_get_name _ n2 (interned_wf_get r n1 hwf)
  refine ⟨hi, ?_, ?_, ?_⟩
  · rw [hi]
    unfold Interned.pyEq
    simp
  · rw [hi]
  · unfold Interned.pyEq
    simp [h1, h2, hne]

/-- C8 (witness): the theorem applied to the empty registry with names `"A"`
and `"B"`. -/
theorem state_get_registry_witness :
    (Interned.State.get (Interned.State.get ⟨[]⟩ "A").2 "A").1 =
      (Interned.State.get ⟨[]⟩ "A").1 ∧
    Interned.pyEq (Interned.State.get ⟨[]⟩ "A").1
      (Interned.State.get (Interned.State.get ⟨[]⟩ "A").2 "A").1 = true ∧
    Interned.pyHash (Interned.State.get ⟨[]⟩ "A").1 =
      Interned.pyHash (Interned.State.get (Interned.State.get ⟨[]⟩ "A").2 "A").1 ∧
    Interned.pyEq (Interned.State.get ⟨[]⟩ "A").1
      (Interned.State.get (Interned.State.get ⟨[]⟩ "A").2 "B").1 = false :=
  state_get_registry ⟨[]⟩ "A" "A" "B"
    (fun e he => absurd he (List.not_mem_nil e)) (by decide)

end TM
